import Mathlib

/-!
Verification of the policy-enforcement core of the secure LLM agent proxy
(a fork of the alpaca proxy).  The Go sources are embedded shallowly:

* strings are modelled as `List Char` (the repository only ever matches
  ASCII hosts, paths and patterns, where Go's byte-wise processing and a
  char-wise model coincide);
* `path.Match` from the Go standard library (called by
  `RuleEngine.CheckURL`) is translated function-by-function from
  `path/match.go` (`scanChunk`, `matchChunk`, `getEsc` and the main
  matching loop);
* the host/path extraction of `net/url.Parse` (also called by
  `RuleEngine.CheckURL` and `SecureProxyHandler.ServeHTTP`) is translated
  from `net/url/url.go` (`getScheme`, `parseAuthority`, `parseHost`,
  `unescape`, `shouldEscape`, `validOptionalPort`, `validUserinfo`);
* the stateful components (`ConfigManager`, the prompt dialog of
  `UIController`, `SecureProxyHandler.ServeHTTP`) are modelled as pure
  state-passing functions.
-/

namespace Alpaca

/-! ## Generic character/list helpers mirroring Go's `strings` package -/

/-- Go `strings.Cut(s, string(c))`: text before the first occurrence of
`c`, text after it, and whether `c` occurred. -/
def cutChar (c : Char) : List Char → List Char × List Char × Bool
  | [] => ([], [], false)
  | a :: rest =>
    if a = c then ([], rest, true)
    else
      let p := cutChar c rest
      (a :: p.1, p.2.1, p.2.2)

/-- Go `strings.LastIndex(s, string(c))` (as an `Option`al index). -/
def lastIndexOf (c : Char) : List Char → Option Nat
  | [] => none
  | a :: rest =>
    match lastIndexOf c rest with
    | some i => some (i + 1)
    | none => if a = c then some 0 else none

/-- Go `strings.Index(s, pat)` (as an `Option`al index). -/
def indexOfSeq (pat : List Char) : List Char → Option Nat
  | [] => if pat = [] then some 0 else none
  | c :: rest =>
    if pat.isPrefixOf (c :: rest) then some 0
    else (indexOfSeq pat rest).map (· + 1)

def isAlphaChar (c : Char) : Bool :=
  ('a' ≤ c && c ≤ 'z') || ('A' ≤ c && c ≤ 'Z')

def isDigitChar (c : Char) : Bool :=
  '0' ≤ c && c ≤ '9'

/-! ## Go `path.Match` (from `path/match.go`)

`RuleEngine.CheckURL` matches every rule pattern with `path.Match` and
discards the returned error (`matched, _ := path.Match(...)`), so a
malformed pattern simply never matches. -/

/-- Result of the chunk matcher `matchChunk`: the remainder of the name on
success, a failed match, or `ErrBadPattern`. -/
inductive ChunkResult where
  | ok (rest : List Char)
  | failed
  | badPattern
deriving DecidableEq, Repr

/-- Result of `path.Match`: matched, not matched, or `ErrBadPattern`
(which the rule engine treats the same as not matched). -/
inductive MatchResult where
  | matched
  | notMatched
  | badPattern
deriving DecidableEq, Repr

/-- The character-class loop of Go's `matchChunk` (the `case '['` branch
together with its inlined calls to `getEsc`).  `r` is the character read
from the name, `nrange` counts parsed ranges, `acc` accumulates `match`.
Returns `none` on `ErrBadPattern`, otherwise whether the class matched
plus the chunk remaining after the closing bracket.  The `lo '-' hi`
continuation of the loop is inlined (twice, once per way of reading the
possibly-escaped `lo`). -/
def classScan (r : Char) : List Char → Nat → Bool → Option (Bool × List Char)
  | [], _, _ => none
  | c :: rest, nrange, acc =>
    if c = ']' ∧ 0 < nrange then some (acc, rest)
    else if c = ']' ∨ c = '-' then none
    else if c = '\\' then
      match rest with
      | [] => none
      | lo :: rest1 =>
        match rest1 with
        | [] => none
        | d :: rest2 =>
          if d = '-' then
            match rest2 with
            | [] => none
            | e :: rest3 =>
              if e = '-' ∨ e = ']' then none
              else if e = '\\' then
                match rest3 with
                | [] => none
                | hi :: rest4 =>
                  if rest4.isEmpty then none
                  else classScan r rest4 (nrange + 1) (acc || decide (lo ≤ r ∧ r ≤ hi))
              else
                if rest3.isEmpty then none
                else classScan r rest3 (nrange + 1) (acc || decide (lo ≤ r ∧ r ≤ e))
          else classScan r (d :: rest2) (nrange + 1) (acc || decide (lo ≤ r ∧ r ≤ lo))
    else
      match rest with
      | [] => none
      | d :: rest2 =>
        if d = '-' then
          match rest2 with
          | [] => none
          | e :: rest3 =>
            if e = '-' ∨ e = ']' then none
            else if e = '\\' then
              match rest3 with
              | [] => none
              | hi :: rest4 =>
                if rest4.isEmpty then none
                else classScan r rest4 (nrange + 1) (acc || decide (c ≤ r ∧ r ≤ hi))
            else
              if rest3.isEmpty then none
              else classScan r rest3 (nrange + 1) (acc || decide (c ≤ r ∧ r ≤ e))
        else classScan r (d :: rest2) (nrange + 1) (acc || decide (c ≤ r ∧ r ≤ c))
termination_by chunk _ _ => chunk.length
decreasing_by all_goals (simp [List.length]; try omega)

/-- Go's `matchChunk(chunk, s)`: checks whether the star-free chunk
matches a prefix of `s`, returning the remainder.  The `failed` flag
mirrors the Go local of the same name (matching has failed but the chunk
is still scanned to surface `ErrBadPattern`).  The fuel argument only
bounds the recursion; every iteration consumes at least one character of
`chunk`, so `chunk.length + 1` (as supplied by `matchChunk`) never runs
out. -/
def matchChunkF : Nat → List Char → List Char → Bool → ChunkResult
  | 0, _, _, _ => .badPattern
  | fuel + 1, chunk, s, failed0 =>
    match chunk with
    | [] => if failed0 then .failed else .ok s
    | c :: rest =>
      let failed := failed0 || s.isEmpty
      if c = '[' then
        let r := if failed then Char.ofNat 0 else s.headD (Char.ofNat 0)
        let s1 := if failed then s else s.tail
        let negated := match rest with | '^' :: _ => true | _ => false
        let chunk1 := match rest with | '^' :: r2 => r2 | _ => rest
        match classScan r chunk1 0 false with
        | none => .badPattern
        | some (m, chunk2) => matchChunkF fuel chunk2 s1 (failed || (m == negated))
      else if c = '?' then
        if failed then matchChunkF fuel rest s failed
        else
          match s with
          | [] => matchChunkF fuel rest s true
          | sc :: stail => matchChunkF fuel rest stail (decide (sc = '/'))
      else if c = '\\' then
        match rest with
        | [] => .badPattern
        | ec :: rest2 =>
          if failed then matchChunkF fuel rest2 s failed
          else
            match s with
            | [] => matchChunkF fuel rest2 s true
            | sc :: stail => matchChunkF fuel rest2 stail (decide (ec ≠ sc))
      else
        if failed then matchChunkF fuel rest s failed
        else
          match s with
          | [] => matchChunkF fuel rest s true
          | sc :: stail => matchChunkF fuel rest stail (decide (c ≠ sc))

def matchChunk (chunk s : List Char) : ChunkResult :=
  matchChunkF (chunk.length + 1) chunk s false

/-- The leading-star consumption of Go's `scanChunk`. -/
def dropStars : List Char → Bool × List Char
  | [] => (false, [])
  | c :: rest => if c = '*' then (true, (dropStars rest).2) else (false, c :: rest)

/-- The scan loop of Go's `scanChunk`: split the pattern at the first
star that is not inside a bracket expression, keeping escaped characters
together. -/
def scanBody : Bool → List Char → List Char × List Char
  | _, [] => ([], [])
  | inrange, c :: rest =>
    if c = '\\' then
      match rest with
      | [] => ([c], [])
      | d :: rest2 =>
        let p := scanBody inrange rest2
        (c :: d :: p.1, p.2)
    else if c = '[' then
      let p := scanBody true rest
      (c :: p.1, p.2)
    else if c = ']' then
      let p := scanBody false rest
      (c :: p.1, p.2)
    else if c = '*' then
      if inrange then
        let p := scanBody inrange rest
        (c :: p.1, p.2)
      else ([], c :: rest)
    else
      let p := scanBody inrange rest
      (c :: p.1, p.2)

mutual

/-- The main `Pattern:` loop of Go's `path.Match`.  Each recursive call
strictly decreases `pattern.length + name.length` (a chunk is never
empty outside the trailing-star case, and the star loop consumes name
characters), so the fuel `pattern.length + name.length + 1` supplied by
`goMatch` never runs out. -/
def goMatchAux : Nat → List Char → List Char → MatchResult
  | 0, _, _ => .badPattern
  | fuel + 1, pattern, name =>
    if pattern.isEmpty then
      if name.isEmpty then .matched else .notMatched
    else
      let star := (dropStars pattern).1
      let afterStar := (dropStars pattern).2
      let chunk := (scanBody false afterStar).1
      let rest := (scanBody false afterStar).2
      if star ∧ chunk.isEmpty then
        if name.contains '/' then .notMatched else .matched
      else
        match matchChunk chunk name with
        | .ok t =>
          if t.isEmpty ∨ ¬rest.isEmpty then goMatchAux fuel rest t
          else if star then starLoop fuel chunk rest name
          else .notMatched
        | .failed =>
          if star then starLoop fuel chunk rest name else .notMatched
        | .badPattern => .badPattern

/-- The star backtracking loop of Go's `path.Match` ("look for match
skipping i+1 bytes; cannot skip /"). -/
def starLoop : Nat → List Char → List Char → List Char → MatchResult
  | 0, _, _, _ => .badPattern
  | fuel + 1, chunk, rest, name =>
    match name with
    | [] => .notMatched
    | c :: ntail =>
      if c = '/' then .notMatched
      else
        match matchChunk chunk ntail with
        | .ok t =>
          if rest.isEmpty ∧ ¬t.isEmpty then starLoop fuel chunk rest ntail
          else goMatchAux fuel rest t
        | .failed => starLoop fuel chunk rest ntail
        | .badPattern => .badPattern

end

/-- Go `path.Match pattern name` (three-valued, see `MatchResult`). -/
def goMatch (pattern name : List Char) : MatchResult :=
  goMatchAux (pattern.length + name.length + 1) pattern name

/-- The boolean the rule engine actually consumes:
`matched, _ := path.Match(pattern, name)`. -/
def pathMatch (pattern name : List Char) : Bool :=
  goMatch pattern name == .matched

/-! ## Go `net/url.Parse` (from `net/url/url.go`)

`RuleEngine.CheckURL` consumes only `err`, `parsedURL.Host` and
`parsedURL.Path` of `url.Parse(rawURL)`; `ServeHTTP` additionally uses
`parsedURL.Hostname()`.  The translation below covers the URL forms the
proxy can ever see (absolute URLs, relative references, rootless/opaque
forms), with percent-escape validation and decoding as in Go.  Each
percent-escape decodes to a single `Char` with the byte's code point
(identical to Go for ASCII data). -/

/-- The result of Go's `url.Parse`; field names follow Go's `URL` struct
(`rootless` stands for Go's field holding rootless opaque data). -/
structure GoURL where
  scheme : List Char := []
  rootless : List Char := []
  host : List Char := []
  path : List Char := []
  rawQuery : List Char := []
  fragment : List Char := []
deriving DecidableEq, Repr

/-- Escaping modes of `net/url` that `Parse` can hit during unescaping. -/
inductive EncMode where
  | host
  | zone
  | pathSeg
  | fragmentPart
  | userPassword
deriving DecidableEq, Repr

def ishex (c : Char) : Bool :=
  ('0' ≤ c && c ≤ '9') || ('a' ≤ c && c ≤ 'f') || ('A' ≤ c && c ≤ 'F')

def unhex (c : Char) : Nat :=
  if '0' ≤ c ∧ c ≤ '9' then c.toNat - '0'.toNat
  else if 'a' ≤ c ∧ c ≤ 'f' then c.toNat - 'a'.toNat + 10
  else if 'A' ≤ c ∧ c ≤ 'F' then c.toNat - 'A'.toNat + 10
  else 0

/-- Go's `shouldEscape(c, mode)` for `mode ∈ {encodeHost, encodeZone}`
(the only modes in which `unescape` consults it). -/
def shouldEscapeHost (c : Char) : Bool :=
  if ('a' ≤ c ∧ c ≤ 'z') ∨ ('A' ≤ c ∧ c ≤ 'Z') ∨ ('0' ≤ c ∧ c ≤ '9') then false
  else if ['!', '$', '&', '\'', '(', ')', '*', '+', ',', ';', '=', ':',
           '[', ']', '<', '>', '"'].contains c then false
  else if ['-', '_', '.', '~'].contains c then false
  else true

/-- Go's `unescape(s, mode)`: validates and decodes percent-escapes.
`none` models the `EscapeError` / `InvalidHostError` returns.  In host
mode, an escape must either encode a non-ASCII byte (first hex digit at
least 8) or be exactly `%25`, and unescaped ASCII characters that
`shouldEscape` would reject give `InvalidHostError`. -/
def unescape (mode : EncMode) : List Char → Option (List Char)
  | [] => some []
  | c :: rest =>
    if c = '%' then
      match rest with
      | a :: b :: rest2 =>
        if ishex a ∧ ishex b then
          if mode = .host ∧ unhex a < 8 ∧ ¬(a = '2' ∧ b = '5') then none
          else
            match unescape mode rest2 with
            | none => none
            | some ds => some (Char.ofNat (16 * unhex a + unhex b) :: ds)
        else none
      | _ => none
    else if (mode = .host ∨ mode = .zone) ∧ c.toNat < 0x80 ∧ shouldEscapeHost c then none
    else
      match unescape mode rest with
      | none => none
      | some ds => some (c :: ds)

/-- Go's `validOptionalPort`: empty, or a colon followed by digits. -/
def validOptionalPort : List Char → Bool
  | [] => true
  | c :: rest => c = ':' && rest.all (fun b => '0' ≤ b && b ≤ '9')

/-- Go's `parseHost`: bracketed IP-literals (with optional RFC 6874 zone
after `%25`), port validation after the last colon, and host
unescaping. -/
def parseHost (host : List Char) : Option (List Char) :=
  match host with
  | '[' :: _ =>
    match lastIndexOf ']' host with
    | none => none
    | some i =>
      if ¬ validOptionalPort (host.drop (i + 1)) then none
      else
        match indexOfSeq ['%', '2', '5'] (host.take i) with
        | some z =>
          match unescape .host (host.take z), unescape .zone ((host.take i).drop z),
              unescape .host (host.drop i) with
          | some h1, some h2, some h3 => some (h1 ++ h2 ++ h3)
          | _, _, _ => none
        | none => unescape .host host
  | _ =>
    match lastIndexOf ':' host with
    | some i => if ¬ validOptionalPort (host.drop i) then none else unescape .host host
    | none => unescape .host host

/-- Go's `validUserinfo`. -/
def validUserinfo (s : List Char) : Bool :=
  s.all fun r =>
    ('A' ≤ r && r ≤ 'Z') || ('a' ≤ r && r ≤ 'z') || ('0' ≤ r && r ≤ '9') ||
    ['-', '.', '_', ':', '~', '!', '$', '&', '\'', '(', ')', '*', '+', ',',
     ';', '=', '%', '@'].contains r

/-- Go's `parseAuthority`: split the userinfo at the last `@`, validate
it, and parse the host.  Only the host is needed downstream. -/
def parseAuthority (authority : List Char) : Option (List Char) :=
  match lastIndexOf '@' authority with
  | none => parseHost authority
  | some i =>
    match parseHost (authority.drop (i + 1)) with
    | none => none
    | some host =>
      let userinfo := authority.take i
      if ¬ validUserinfo userinfo then none
      else if userinfo.contains ':' then
        let cut := cutChar ':' userinfo
        match unescape .userPassword cut.1, unescape .userPassword cut.2.1 with
        | some _, some _ => some host
        | _, _ => none
      else
        match unescape .userPassword userinfo with
        | some _ => some host
        | none => none

/-- Scan of `getScheme` after a valid leading letter: letters, digits,
`+`, `-`, `.` up to a colon. `none` means no valid scheme was found. -/
def schemeSplit : List Char → Option (List Char × List Char)
  | [] => none
  | c :: rest =>
    if c = ':' then some ([], rest)
    else if isAlphaChar c || isDigitChar c || c = '+' || c = '-' || c = '.' then
      (schemeSplit rest).map (fun p => (c :: p.1, p.2))
    else none

/-- Go's `getScheme`: `some (scheme, rest)` with a possibly empty scheme,
or `none` for the "missing protocol scheme" error. -/
def getScheme (rawURL : List Char) : Option (List Char × List Char) :=
  match rawURL with
  | [] => some ([], [])
  | c :: rest =>
    if isAlphaChar c then
      match schemeSplit rest with
      | some (sch, after) => some (c :: sch, after)
      | none => some ([], rawURL)
    else if c = ':' then none
    else some ([], rawURL)

/-- Go's `url.parse(rawURL, viaRequest=false)`: the fragment has already
been split off by the caller. -/
def urlParseMain (rawURL : List Char) : Option GoURL :=
  if rawURL.any (fun c => c.toNat < 0x20 || c.toNat = 0x7f) then none
  else if rawURL = ['*'] then some { path := ['*'] }
  else
    match getScheme rawURL with
    | none => none
    | some (scheme0, rest0) =>
      let scheme := scheme0.map Char.toLower
      let cutQ := cutChar '?' rest0
      let rest := cutQ.1
      let rawQuery := cutQ.2.1
      let startsSlash := match rest with | '/' :: _ => true | _ => false
      if !startsSlash && !scheme.isEmpty then
        some { scheme := scheme, rootless := rest, rawQuery := rawQuery }
      else if !startsSlash && ((cutChar '/' rest).1).contains ':' then
        none
      else
        let dslash := match rest with | '/' :: '/' :: _ => true | _ => false
        let tslash := match rest with | '/' :: '/' :: '/' :: _ => true | _ => false
        if (!scheme.isEmpty || !tslash) && dslash then
          let authAndPath := rest.drop 2
          let authority :=
            match authAndPath.findIdx? (· = '/') with
            | some i => authAndPath.take i
            | none => authAndPath
          let rest2 :=
            match authAndPath.findIdx? (· = '/') with
            | some i => authAndPath.drop i
            | none => []
          match parseAuthority authority with
          | none => none
          | some host =>
            match unescape .pathSeg rest2 with
            | none => none
            | some p =>
              some { scheme := scheme, host := host, path := p, rawQuery := rawQuery }
        else
          match unescape .pathSeg rest with
          | none => none
          | some p => some { scheme := scheme, path := p, rawQuery := rawQuery }

/-- Go's `url.Parse(rawURL)`: split the fragment off first, parse the
rest, then validate/decode the fragment. -/
def urlParse (rawURL : List Char) : Option GoURL :=
  let cutF := cutChar '#' rawURL
  match urlParseMain cutF.1 with
  | none => none
  | some url =>
    if cutF.2.1 = [] then some url
    else
      match unescape .fragmentPart cutF.2.1 with
      | none => none
      | some f => some { url with fragment := f }

/-! ## `RuleEngine` (rule_engine.go) -/

/-- Type `DecisionType` of rule_engine.go. -/
inductive DecisionType where
  | Allowed
  | Denied
  | PromptUser
deriving DecidableEq, Repr

/-- Struct `RuleEngine` of rule_engine.go. -/
structure RuleEngine where
  allowAlwaysPatterns : List String
  denyAlwaysPatterns : List String
deriving DecidableEq, Repr

/-- One iteration of the rule loops of `CheckURL`: try the pattern
against `host + path`; if the pattern has no `/`, additionally try it
against the host alone. -/
def patternHits (pattern : String) (host hostWithPath : List Char) : Bool :=
  pathMatch pattern.data hostWithPath ||
    (!pattern.data.contains '/' && pathMatch pattern.data host)

/-- Method `RuleEngine.CheckURL` of rule_engine.go: parse the URL (failure means
`Denied`), then try every deny pattern, then every allow pattern, and
fall back to `PromptUser`. -/
def RuleEngine.CheckURL (re : RuleEngine) (rawURL : String) : DecisionType :=
  match urlParse rawURL.data with
  | none => .Denied
  | some parsedURL =>
    let hostWithPath := parsedURL.host ++ parsedURL.path
    if re.denyAlwaysPatterns.any (fun p => patternHits p parsedURL.host hostWithPath) then
      .Denied
    else if re.allowAlwaysPatterns.any (fun p => patternHits p parsedURL.host hostWithPath) then
      .Allowed
    else .PromptUser

/-! ## `ConfigManager` (config_manager.go)

The manager's in-memory `Config` is modelled directly.  The rule-append
methods run under `cm.mu.Lock()` (a Go `sync.RWMutex` write lock, held
to the end of the call by `defer cm.mu.Unlock()`).  On the new-pattern
path they `return cm.SaveConfig()` — and `SaveConfig` begins with
`cm.mu.RLock()` on the same mutex.  A Go `sync.RWMutex` is not
reentrant: an `RLock` taken while the same goroutine holds the write
lock blocks forever.  So appending a genuinely new pattern mutates the
in-memory list and then self-deadlocks inside `SaveConfig` before any
marshalling or file write: nothing is saved and the call never returns
(the code comment "SaveConfig is now called without lock" is wrong).
The model records all three observables of a call. -/

/-- Struct `Config` of config_manager.go. -/
structure Config where
  allowAlways : List String
  denyAlways : List String
  upstreamProxy : String
deriving DecidableEq, Repr

/-- Observables of one `AddAllowRule`/`AddDenyRule` call: the in-memory
configuration after the call's mutations, whether `SaveConfig` completed
a write, and whether the call ever returns to its caller. -/
structure StoreCall where
  config : Config
  saved : Bool
  returns : Bool
deriving DecidableEq, Repr

/-- Method `ConfigManager.AddAllowRule` (config_manager.go lines
120-133): an exact duplicate returns nil with no change and no save;
a new pattern is appended to the in-memory list, after which the call
self-deadlocks in `SaveConfig`'s `RLock` (taken under the still-held
write lock, lines 93-95) — no save happens and the call never
returns. -/
def AddAllowRule (cfg : Config) (pattern : String) : StoreCall :=
  if cfg.allowAlways.contains pattern then ⟨cfg, false, true⟩
  else ⟨{ cfg with allowAlways := cfg.allowAlways ++ [pattern] }, false, false⟩

/-- Method `ConfigManager.AddDenyRule` (config_manager.go lines
136-149): same behavior as `AddAllowRule` on the deny list, including
the `SaveConfig` self-deadlock on every new pattern. -/
def AddDenyRule (cfg : Config) (pattern : String) : StoreCall :=
  if cfg.denyAlways.contains pattern then ⟨cfg, false, true⟩
  else ⟨{ cfg with denyAlways := cfg.denyAlways ++ [pattern] }, false, false⟩

/-! ## The prompt dialog of `UIController` (ui_controller.go)

`showPromptDialog` installs four button callbacks and a `SetOnClosed`
callback.  All of these callbacks run on the single Fyne event
goroutine, so their executions are serialized; the only cross-goroutine
interaction is the send on `req.ResponseChan`, whose single receiver is
the caller blocked inside `RequestUserDecision`.  The model below makes
that serialized execution explicit:

* `slot` is the list of values delivered into `req.ResponseChan`'s
  receiver (the response slot of the pending decision request);
* `stuck` records a send that can never complete (a send performed when
  the single receive has already been consumed), i.e. a deadlock;
* the non-blocking `select` probe at the top of `sendResponse` never
  finds a pending sender in a serialized execution, so it always falls
  through to its `default` branch, and the `tempChan` round-trip in
  `SetOnClosed` always reads back the value it just wrote — faithfully
  to the source, neither probe guards anything; the real guard is the
  `chosenDecision` flag.

A dialog lifetime produces either a single `closed` event (the user
closed the window without choosing) or one `button` event followed by
`closed` (every button handler sets `chosenDecision` and then
`sendResponse` closes the window, which fires `SetOnClosed`). -/

/-- Type `UserDecision` of ui_controller.go. -/
inductive UserDecision where
  | AllowOnce
  | DenyOnce
  | AllowAlways
  | DenyAlways
  | Error
  | DialogDismissed
deriving DecidableEq, Repr

/-- Struct `PromptResponse` of ui_controller.go. -/
structure PromptResponse where
  Decision : UserDecision
  RuleToAdd : String
deriving DecidableEq, Repr

/-- State of one pending prompt: the `chosenDecision` flag of
`showPromptDialog` plus the channel/receiver state. -/
structure DialogState where
  chosen : UserDecision
  slot : List PromptResponse
  stuck : Bool
deriving DecidableEq, Repr

/-- Initially `chosenDecision` starts as `UserDecisionDialogDismissed`
(ui_controller.go line 333); nothing delivered yet. -/
def initDialogState : DialogState :=
  { chosen := .DialogDismissed, slot := [], stuck := false }

/-- A blocking send on `req.ResponseChan`.  The unbuffered channel has
exactly one receiver (`RequestUserDecision`), which consumes exactly one
value; a second send can never be received and blocks forever. -/
def channelSend (st : DialogState) (v : PromptResponse) : DialogState :=
  if st.stuck then st
  else if st.slot.isEmpty then { st with slot := [v] }
  else { st with stuck := true }

/-- Events a dialog window can produce: an explicit button choice, or the
window-manager close (which also fires after a button handler closes the
window). -/
inductive DialogEvent where
  | button (d : UserDecision) (rule : String)
  | closed
deriving DecidableEq, Repr

/-- One serialized callback execution.  A button handler sets
`chosenDecision` and runs `sendResponse` (whose `select` probe finds no
pending sender and falls through to the send).  The `SetOnClosed`
handler sends `DenyOnce` if and only if `chosenDecision` is still
`UserDecisionDialogDismissed`; its `tempChan` round-trip always yields
the `DenyOnce` value back, so it is modelled as the send it performs. -/
def dialogStep (st : DialogState) : DialogEvent → DialogState
  | .button d rule => channelSend { st with chosen := d } ⟨d, rule⟩
  | .closed =>
    if st.chosen = .DialogDismissed then channelSend st ⟨.DenyOnce, ""⟩
    else st

/-- Run a dialog lifetime from the initial state. -/
def dialogRun (events : List DialogEvent) : DialogState :=
  events.foldl dialogStep initDialogState

/-- The event sequences a dialog window can produce (see the section
comment): a bare close, or one button press — one of the four button
handlers, none of which uses `Error` or `DialogDismissed` — followed by
the close that the button handler itself triggers. -/
inductive ValidDialogTrace : List DialogEvent → Prop where
  | closeOnly : ValidDialogTrace [.closed]
  | buttonThenClose (d : UserDecision) (rule : String)
      (hd : d ≠ .Error ∧ d ≠ .DialogDismissed) :
      ValidDialogTrace [.button d rule, .closed]

/-! ## `SecureProxyHandler.ServeHTTP` (proxy_handler.go)

The handler is modelled from the point where the request URL string has
been determined (proxy_handler.go line 82): classify via the rule
engine; on `Denied` reject with a 403 policy message; on `PromptUser`
branch on the outcome of `RequestUserDecision` (supplied here as the
`userDecision`/`userRule` arguments, since the UI is an external
collaborator); otherwise forward.  `http.Error` calls are modelled by
their status code and message; the config mutations and the store
calls' observables are threaded through.  The `DenyAlways` and
`AllowAlways` branches call `AddDenyRule`/`AddAllowRule`, which on a
genuinely new rule never return (the `SaveConfig` self-deadlock); on
those paths the handler goroutine blocks before reaching `http.Error`
or the forward, so no response is ever produced. -/

/-- An HTTP outcome of `ServeHTTP`: delegate to the original alpaca
handler, reject via `http.Error`, or — on a store call that
self-deadlocks — no response at all: the handler goroutine blocks
forever inside `AddAllowRule`/`AddDenyRule`. -/
inductive HTTPResponse where
  | forwarded
  | httpError (status : Nat) (msg : String)
  | hangs
deriving DecidableEq, Repr

/-- Result of one `ServeHTTP` run: the response (or `hangs`), the
in-memory configuration after any rule addition, and whether a
`SaveConfig` write completed. -/
structure ServeOutput where
  response : HTTPResponse
  config : Config
  saved : Bool
deriving DecidableEq, Repr

/-- Go's `URL.Hostname()` / `splitHostPort`: strip a valid `:port`
suffix and surrounding brackets. -/
def Hostname (host : List Char) : List Char :=
  let h1 :=
    match lastIndexOf ':' host with
    | some i => if validOptionalPort (host.drop i) then host.take i else host
    | none => host
  match h1 with
  | '[' :: _ => if h1.getLast? = some ']' then (h1.drop 1).dropLast else h1
  | _ => h1

/-- Method `SecureProxyHandler.ServeHTTP` (proxy_handler.go lines 82-145),
parameterized by the decision the UI controller would deliver for this
request (consumed only on the `PromptUser` path, exactly as
`RequestUserDecision` is only called there). -/
def ServeHTTP (cfg : Config) (requestURLString : String)
    (userDecision : UserDecision) (userRule : String) : ServeOutput :=
  let re : RuleEngine := ⟨cfg.allowAlways, cfg.denyAlways⟩
  let decision := re.CheckURL requestURLString
  if decision = .Denied then
    ⟨.httpError 403 "Blocked by corporate policy (matched deny_always rule)", cfg, false⟩
  else if decision = .PromptUser then
    match userDecision with
    | .DenyOnce => ⟨.httpError 403 "Blocked by user (Deny Once)", cfg, false⟩
    | .DenyAlways =>
      let ruleToAdd :=
        if userRule = "" then
          match urlParse requestURLString.data with
          | some parsedURL => String.mk (Hostname parsedURL.host)
          | none => requestURLString
        else userRule
      let r := AddDenyRule cfg ruleToAdd
      if r.returns then ⟨.httpError 403 "Blocked by user (Deny Always)", r.config, r.saved⟩
      else ⟨.hangs, r.config, r.saved⟩
    | .AllowAlways =>
      let r := AddAllowRule cfg userRule
      if r.returns then ⟨.forwarded, r.config, r.saved⟩
      else ⟨.hangs, r.config, r.saved⟩
    | .AllowOnce => ⟨.forwarded, cfg, false⟩
    | .Error => ⟨.httpError 500 "Failed to get user decision", cfg, false⟩
    | .DialogDismissed => ⟨.httpError 500 "Unknown decision outcome", cfg, false⟩
  else ⟨.forwarded, cfg, false⟩

/-! ## Claim theorems -/

/-- C1: for every target and every rule set in which some deny pattern
matches the target and some allow pattern also matches it,
`CheckURL` returns `Denied` — deny patterns are tested before allow
patterns, and a deny match wins regardless of the competing allow
pattern. -/
theorem spec_C1 (re : RuleEngine) (rawURL : String) (u : GoURL)
    (hparse : urlParse rawURL.data = some u)
    (hdeny : ∃ p ∈ re.denyAlwaysPatterns, patternHits p u.host (u.host ++ u.path) = true)
    (hallow : ∃ q ∈ re.allowAlwaysPatterns, patternHits q u.host (u.host ++ u.path) = true) :
    re.CheckURL rawURL = .Denied := by
  have hany : re.denyAlwaysPatterns.any
      (fun p => patternHits p u.host (u.host ++ u.path)) = true := by
    obtain ⟨p, hp, hm⟩ := hdeny
    exact List.any_eq_true.mpr ⟨p, hp, hm⟩
  unfold RuleEngine.CheckURL
  rw [hparse]
  simp [hany]

/-- Witness for C1: the "Deny takes precedence" row of the rule engine's
test table. -/
theorem spec_C1_witness :
    urlParse "http://allowed.com".data =
      some ⟨"http".data, [], "allowed.com".data, [], [], []⟩ ∧
    (RuleEngine.mk ["allowed.com"] ["allowed.com"]).CheckURL "http://allowed.com" = .Denied :=
  ⟨by decide,
   spec_C1 (RuleEngine.mk ["allowed.com"] ["allowed.com"]) "http://allowed.com"
     ⟨"http".data, [], "allowed.com".data, [], [], []⟩ (by decide)
     ⟨"allowed.com", by decide, by decide⟩ ⟨"allowed.com", by decide, by decide⟩⟩

/-- C2: every raw target that `url.Parse` rejects classifies as `Denied`,
for every rule set — the fail-closed outcome is produced before any deny
or allow pattern is consulted, so it holds even for empty rule lists. -/
theorem spec_C2 (rawURL : String) (allow deny : List String)
    (hparse : urlParse rawURL.data = none) :
    (RuleEngine.mk allow deny).CheckURL rawURL = .Denied := by
  unfold RuleEngine.CheckURL
  rw [hparse]

/-- Witness for C2: the malformed URL of the rule engine's test table,
with both rule lists empty. -/
theorem spec_C2_witness :
    urlParse "http://%".data = none ∧
    (RuleEngine.mk [] []).CheckURL "http://%" = .Denied :=
  ⟨by decide, spec_C2 "http://%" [] [] (by decide)⟩

/-- C3: over every event sequence a dialog window can produce, exactly
one outcome is delivered into the pending request's response slot: no
deadlock (`stuck = false`), exactly one delivery, and when both the
button path and the window-closed path run, the closed path observes the
button's choice in `chosenDecision` and drops, leaving exactly the
button's response. -/
theorem spec_C3 (tr : List DialogEvent) (hv : ValidDialogTrace tr) :
    (dialogRun tr).stuck = false ∧ (dialogRun tr).slot.length = 1 ∧
    (∀ d rule, tr = [.button d rule, .closed] →
      (dialogRun tr).slot = [⟨d, rule⟩]) := by
  cases hv with
  | closeOnly =>
    refine ⟨by decide, by decide, ?_⟩
    intro d rule h
    simp at h
  | buttonThenClose d rule hd =>
    have hne : d ≠ UserDecision.DialogDismissed := hd.2
    have hrun : dialogRun [.button d rule, .closed] =
        { chosen := d, slot := [⟨d, rule⟩], stuck := false } := by
      simp [dialogRun, dialogStep, channelSend, initDialogState, hne]
    refine ⟨by simp [hrun], by simp [hrun], ?_⟩
    intro d' rule' h
    have hdd : d = d' ∧ rule = rule' := by
      simpa using h
    rw [← hdd.1, ← hdd.2, hrun]

/-- Witness for C3: an `Allow Once` button press followed by the window
close its handler triggers. -/
theorem spec_C3_witness :
    (dialogRun [.button .AllowOnce "", .closed]).stuck = false ∧
    (dialogRun [.button .AllowOnce "", .closed]).slot.length = 1 ∧
    (∀ d rule, ([DialogEvent.button .AllowOnce "", .closed] : List DialogEvent) =
        [.button d rule, .closed] →
      (dialogRun [.button .AllowOnce "", .closed]).slot = [⟨d, rule⟩]) :=
  spec_C3 [.button .AllowOnce "", .closed]
    (ValidDialogTrace.buttonThenClose .AllowOnce "" ⟨by decide, by decide⟩)

/-- C4 (code bug): the claim — matching the code's own comment and its
`TestConfigManager_AddRules` — says a genuinely new pattern is appended
once with persistence invoked, and a duplicate leaves everything
unchanged with no persistence call.  The duplicate half holds, but on
every new pattern the call self-deadlocks inside `SaveConfig` (whose
`RLock` is taken while the method still holds the write lock of the
same non-reentrant `sync.RWMutex`): evaluated at the test's own inputs
`allow.com`/`deny.com` from the default empty configuration, the
in-memory append happens but nothing is saved and the call never
returns; only the duplicate calls return. -/
theorem spec_C4 :
    AddAllowRule ⟨[], [], ""⟩ "allow.com" =
      ⟨⟨["allow.com"], [], ""⟩, false, false⟩ ∧
    AddDenyRule ⟨[], [], ""⟩ "deny.com" =
      ⟨⟨[], ["deny.com"], ""⟩, false, false⟩ ∧
    AddAllowRule ⟨["allow.com"], [], ""⟩ "allow.com" =
      ⟨⟨["allow.com"], [], ""⟩, false, true⟩ ∧
    AddDenyRule ⟨[], ["deny.com"], ""⟩ "deny.com" =
      ⟨⟨[], ["deny.com"], ""⟩, false, true⟩ := by
  decide

/-- C5 counterexample: the claim says an `AllowAlways` outcome with an
empty rule text defaults the rule to the target's host before calling
the allow-list append; but `ServeHTTP` on target `http://x.com` with
outcome `AllowAlways("")` appends the empty string itself, not the host
`x.com`. -/
theorem spec_C5_counterexample :
    (ServeHTTP ⟨[], [], ""⟩ "http://x.com" .AllowAlways "").config.allowAlways = [""] ∧
    (ServeHTTP ⟨[], [], ""⟩ "http://x.com" .AllowAlways "").config.allowAlways ≠ ["x.com"] := by
  decide

/-- C5 (amended): on a `DenyAlways` outcome with an empty rule text the
handler defaults the rule to the target's hostname and hands it to the
deny-list append; on an `AllowAlways` outcome it hands over the provided
rule text unchanged (no empty-rule defaulting — the UI form validates
non-emptiness).  When the rule is already present the store call
returns and the handler rejects with the 403 user-denial signal /
forwards, respectively; when the rule is new the handler blocks forever
inside the store call (the `SaveConfig` self-deadlock of C4) after the
in-memory append, and no response is ever sent. -/
theorem spec_C5 (cfg : Config) (raw : String) (u : GoURL) (r : String)
    (hparse : urlParse raw.data = some u)
    (hprompt : (RuleEngine.mk cfg.allowAlways cfg.denyAlways).CheckURL raw = .PromptUser) :
    ((ServeHTTP cfg raw .DenyAlways "").config.denyAlways =
       (if String.mk (Hostname u.host) ∈ cfg.denyAlways then cfg.denyAlways
        else cfg.denyAlways ++ [String.mk (Hostname u.host)]) ∧
     (ServeHTTP cfg raw .DenyAlways "").response =
       (if String.mk (Hostname u.host) ∈ cfg.denyAlways then
          .httpError 403 "Blocked by user (Deny Always)"
        else .hangs)) ∧
    ((ServeHTTP cfg raw .AllowAlways r).config.allowAlways =
       (if r ∈ cfg.allowAlways then cfg.allowAlways
        else cfg.allowAlways ++ [r]) ∧
     (ServeHTTP cfg raw .AllowAlways r).response =
       (if r ∈ cfg.allowAlways then .forwarded else .hangs)) := by
  refine ⟨⟨?_, ?_⟩, ⟨?_, ?_⟩⟩ <;>
    simp [ServeHTTP, hprompt, hparse, AddDenyRule, AddAllowRule] <;>
    split <;> simp

/-- Witness for C5 (amended): a target whose classification is undecided
while both rules to be added are already stored — the hostname default
`x.com` (for the `:8080` target it does not match, so classification
stays `PromptUser`) is already in the deny list and the explicit rule
`other.com` already in the allow list, so both store calls return and
the handler answers 403 / forwards. -/
theorem spec_C5_witness :
    ((ServeHTTP ⟨["other.com"], ["x.com"], ""⟩ "http://x.com:8080/p" .DenyAlways "").config.denyAlways =
       (if String.mk (Hostname "x.com:8080".data) ∈ ["x.com"] then ["x.com"]
        else ["x.com"] ++ [String.mk (Hostname "x.com:8080".data)]) ∧
     (ServeHTTP ⟨["other.com"], ["x.com"], ""⟩ "http://x.com:8080/p" .DenyAlways "").response =
       (if String.mk (Hostname "x.com:8080".data) ∈ ["x.com"] then
          .httpError 403 "Blocked by user (Deny Always)"
        else .hangs)) ∧
    ((ServeHTTP ⟨["other.com"], ["x.com"], ""⟩ "http://x.com:8080/p" .AllowAlways "other.com").config.allowAlways =
       (if "other.com" ∈ ["other.com"] then ["other.com"]
        else ["other.com"] ++ ["other.com"]) ∧
     (ServeHTTP ⟨["other.com"], ["x.com"], ""⟩ "http://x.com:8080/p" .AllowAlways "other.com").response =
       (if "other.com" ∈ ["other.com"] then .forwarded else .hangs)) :=
  spec_C5 ⟨["other.com"], ["x.com"], ""⟩ "http://x.com:8080/p"
    ⟨"http".data, [], "x.com:8080".data, "/p".data, [], []⟩ "other.com"
    (by decide) (by decide)

/-- C6: a `ProviderError` (`UserDecisionError`) or `NoChoiceDismissed`
(`UserDecisionDialogDismissed`) outcome makes the handler reject with an
internal-error signal (HTTP 500), leaving the store untouched, while
rule-based and user-chosen denials use the policy-block signal
(HTTP 403) — the two signals are distinct. -/
theorem spec_C6 (cfg : Config) (raw r : String)
    (hprompt : (RuleEngine.mk cfg.allowAlways cfg.denyAlways).CheckURL raw = .PromptUser) :
    ServeHTTP cfg raw .Error r =
      ⟨.httpError 500 "Failed to get user decision", cfg, false⟩ ∧
    ServeHTTP cfg raw .DialogDismissed r =
      ⟨.httpError 500 "Unknown decision outcome", cfg, false⟩ ∧
    ServeHTTP cfg raw .DenyOnce r =
      ⟨.httpError 403 "Blocked by user (Deny Once)", cfg, false⟩ ∧
    (∀ (cfg' : Config) (raw' r' : String) (ud' : UserDecision),
      (RuleEngine.mk cfg'.allowAlways cfg'.denyAlways).CheckURL raw' = .Denied →
      ServeHTTP cfg' raw' ud' r' =
        ⟨.httpError 403 "Blocked by corporate policy (matched deny_always rule)", cfg', false⟩) ∧
    (500 : Nat) ≠ 403 := by
  refine ⟨by simp [ServeHTTP, hprompt], by simp [ServeHTTP, hprompt],
    by simp [ServeHTTP, hprompt], ?_, by decide⟩
  intro cfg' raw' r' ud' hden
  simp [ServeHTTP, hden]

/-- Witness for C6: a provider error on an unmatched target from an
empty configuration, plus the rule-based 403 on a denied target. -/
theorem spec_C6_witness :
    ServeHTTP ⟨[], [], ""⟩ "http://x.com" .Error "" =
      ⟨.httpError 500 "Failed to get user decision", ⟨[], [], ""⟩, false⟩ ∧
    ServeHTTP ⟨[], [], ""⟩ "http://x.com" .DialogDismissed "" =
      ⟨.httpError 500 "Unknown decision outcome", ⟨[], [], ""⟩, false⟩ ∧
    ServeHTTP ⟨[], [], ""⟩ "http://x.com" .DenyOnce "" =
      ⟨.httpError 403 "Blocked by user (Deny Once)", ⟨[], [], ""⟩, false⟩ ∧
    (∀ (cfg' : Config) (raw' r' : String) (ud' : UserDecision),
      (RuleEngine.mk cfg'.allowAlways cfg'.denyAlways).CheckURL raw' = .Denied →
      ServeHTTP cfg' raw' ud' r' =
        ⟨.httpError 403 "Blocked by corporate policy (matched deny_always rule)", cfg', false⟩) ∧
    (500 : Nat) ≠ 403 :=
  spec_C6 ⟨[], [], ""⟩ "http://x.com" "" (by decide)

/-- C7: when the prompt window is closed without an explicit choice, the
outcome delivered to the waiting caller is `DenyOnce`, and the handler
then rejects that one request with the user-denial signal, with no store
mutation and no forwarding. -/
theorem spec_C7 (cfg : Config) (raw : String)
    (hprompt : (RuleEngine.mk cfg.allowAlways cfg.denyAlways).CheckURL raw = .PromptUser) :
    (dialogRun [.closed]).slot = [⟨.DenyOnce, ""⟩] ∧
    ServeHTTP cfg raw .DenyOnce "" =
      ⟨.httpError 403 "Blocked by user (Deny Once)", cfg, false⟩ :=
  ⟨by decide, by simp [ServeHTTP, hprompt]⟩

/-- Witness for C7: closing the prompt for `http://x.com` under an empty
configuration. -/
theorem spec_C7_witness :
    (dialogRun [.closed]).slot = [⟨.DenyOnce, ""⟩] ∧
    ServeHTTP ⟨[], [], ""⟩ "http://x.com" .DenyOnce "" =
      ⟨.httpError 403 "Blocked by user (Deny Once)", ⟨[], [], ""⟩, false⟩ :=
  spec_C7 ⟨[], [], ""⟩ "http://x.com" (by decide)

/-- A singleton allow list classifies a parsed target as `Allowed`
exactly when the pattern hits it. -/
theorem CheckURL_allow_single (p raw : String) (u : GoURL)
    (hparse : urlParse raw.data = some u) :
    ((RuleEngine.mk [p] []).CheckURL raw = .Allowed ↔
      patternHits p u.host (u.host ++ u.path) = true) := by
  unfold RuleEngine.CheckURL
  rw [hparse]
  cases h : patternHits p u.host (u.host ++ u.path) <;> simp [h]

/-- A singleton deny list classifies a parsed target as `Denied` exactly
when the pattern hits it. -/
theorem CheckURL_deny_single (p raw : String) (u : GoURL)
    (hparse : urlParse raw.data = some u) :
    ((RuleEngine.mk [] [p]).CheckURL raw = .Denied ↔
      patternHits p u.host (u.host ++ u.path) = true) := by
  unfold RuleEngine.CheckURL
  rw [hparse]
  cases h : patternHits p u.host (u.host ++ u.path) <;> simp [h]

/-- C8: a pattern without a path separator is matched against the full
`host[:port]/path` string and, failing that, against `host[:port]`
alone — a match on either counts, so a bare domain pattern matches
regardless of the path; a pattern containing a separator is matched only
against the full string.  Stated for both the allow and the deny loop. -/
theorem spec_C8 (p raw : String) (u : GoURL)
    (hparse : urlParse raw.data = some u) :
    ('/' ∉ p.data →
      (((RuleEngine.mk [p] []).CheckURL raw = .Allowed) ↔
        (pathMatch p.data (u.host ++ u.path) = true ∨ pathMatch p.data u.host = true)) ∧
      (((RuleEngine.mk [] [p]).CheckURL raw = .Denied) ↔
        (pathMatch p.data (u.host ++ u.path) = true ∨ pathMatch p.data u.host = true))) ∧
    ('/' ∈ p.data →
      (((RuleEngine.mk [p] []).CheckURL raw = .Allowed) ↔
        pathMatch p.data (u.host ++ u.path) = true) ∧
      (((RuleEngine.mk [] [p]).CheckURL raw = .Denied) ↔
        pathMatch p.data (u.host ++ u.path) = true)) := by
  have hhits : ∀ (h : '/' ∉ p.data),
      patternHits p u.host (u.host ++ u.path) =
        (pathMatch p.data (u.host ++ u.path) || pathMatch p.data u.host) := by
    intro h
    simp [patternHits, h]
  have hhits2 : ∀ (h : '/' ∈ p.data),
      patternHits p u.host (u.host ++ u.path) = pathMatch p.data (u.host ++ u.path) := by
    intro h
    simp [patternHits, h]
  constructor
  · intro h
    constructor
    · rw [CheckURL_allow_single p raw u hparse, hhits h]
      simp
    · rw [CheckURL_deny_single p raw u hparse, hhits h]
      simp
  · intro h
    constructor
    · rw [CheckURL_allow_single p raw u hparse, hhits2 h]
    · rw [CheckURL_deny_single p raw u hparse, hhits2 h]

/-- Witness for C8: the bare pattern `example.com` against
`http://example.com/` — the full-string try fails (trailing slash) but
the host-only try succeeds, and the classification is `Allowed`. -/
theorem spec_C8_witness :
    (((RuleEngine.mk ["example.com"] []).CheckURL "http://example.com/" = .Allowed) ↔
      (pathMatch "example.com".data ("example.com".data ++ "/".data) = true ∨
       pathMatch "example.com".data "example.com".data = true)) ∧
    pathMatch "example.com".data ("example.com".data ++ "/".data) = false ∧
    pathMatch "example.com".data "example.com".data = true :=
  ⟨((spec_C8 "example.com" "http://example.com/"
      ⟨"http".data, [], "example.com".data, "/".data, [], []⟩ (by decide)).1
      (by decide)).1,
   by decide, by decide⟩

/-- C9: with allow list `["*.domain.com"]` the target of
`http://domain.com` is undecided (the wildcard needs a non-empty label
before the dot), while with allow list `["*.allowed.com"]` the target of
`http://sub.allowed.com` is allowed. -/
theorem spec_C9 :
    (RuleEngine.mk ["*.domain.com"] []).CheckURL "http://domain.com" = .PromptUser ∧
    (RuleEngine.mk ["*.allowed.com"] []).CheckURL "http://sub.allowed.com" = .Allowed := by
  decide

/-- C10: classification depends only on the parsed host (with port) and
path — two URL strings that parse to the same host and path (differing,
say, only in query or fragment) get the same decision for every rule
set. -/
theorem spec_C10 (re : RuleEngine) (raw1 raw2 : String) (u1 u2 : GoURL)
    (h1 : urlParse raw1.data = some u1) (h2 : urlParse raw2.data = some u2)
    (hhost : u1.host = u2.host) (hpath : u1.path = u2.path) :
    re.CheckURL raw1 = re.CheckURL raw2 := by
  unfold RuleEngine.CheckURL
  rw [h1, h2]
  simp only [hhost, hpath]

/-- Witness for C10: the same host and path with a query on one side and
a fragment on the other. -/
theorem spec_C10_witness :
    urlParse "http://example.com/p?x=1".data =
      some ⟨"http".data, [], "example.com".data, "/p".data, "x=1".data, []⟩ ∧
    urlParse "http://example.com/p#sec".data =
      some ⟨"http".data, [], "example.com".data, "/p".data, [], "sec".data⟩ ∧
    (RuleEngine.mk ["example.com/p"] []).CheckURL "http://example.com/p?x=1" =
      (RuleEngine.mk ["example.com/p"] []).CheckURL "http://example.com/p#sec" :=
  ⟨by decide, by decide,
   spec_C10 (RuleEngine.mk ["example.com/p"] []) _ _
     ⟨"http".data, [], "example.com".data, "/p".data, "x=1".data, []⟩
     ⟨"http".data, [], "example.com".data, "/p".data, [], "sec".data⟩
     (by decide) (by decide) (by decide) (by decide)⟩

end Alpaca
